/-
Verification of the statement normalization / deduplication pipeline and the
snapshot build-and-cutover protocol of indra_db, as implemented in
`indra_db/managers/knowledgebase_manager.py` and
`indra_db/managers/readonly_manager.py`.

The INDRA statement objects, the store primitives (`indra_db.util`) and the
serving-layer redirect are consumed through the narrow interfaces described in
the specification; they are embedded here at that interface level, while the
manager logic itself is translated line by line from the source.
-/
import Mathlib

set_option autoImplicit false

namespace IndraDb

/-! ## Statement model

An INDRA `Evidence` carries a source hash, a deterministic fingerprint of the
evidence record's own content.  A `Stmt` carries its type, its agents, a
content hash (`mk_hash`, deterministic in type and agents, independent of the
evidence) and a list of evidence records. -/

structure Evidence where
  source_hash : Int
  deriving DecidableEq, Repr

structure Stmt where
  stype : String
  agents : List String
  mk_hash : Int
  evidence : List Evidence
  deriving DecidableEq, Repr

/-- `stmt.get_hash()`: the content hash of the statement. -/
def Stmt.get_hash (s : Stmt) : Int := s.mk_hash

/-- `ev.get_source_hash()`: the source hash of one evidence record. -/
def Evidence.get_source_hash (e : Evidence) : Int := e.source_hash

/-- `stmt.make_generic_copy()`: a copy with the same type and agents (hence
the same content hash) and the evidence list cleared. -/
def Stmt.make_generic_copy (s : Stmt) : Stmt := { s with evidence := [] }

/-- `_expanded` (knowledgebase_manager.py lines 427-436): for each statement,
if it has more than one evidence record, yield one generic copy per evidence
record, each with exactly that single evidence appended; otherwise yield the
statement itself unchanged. -/
def expanded : List Stmt → List Stmt
  | [] => []
  | stmt :: rest =>
      (if stmt.evidence.length > 1 then
        stmt.evidence.map (fun ev =>
          { stmt.make_generic_copy with evidence := [ev] })
      else [stmt]) ++ expanded rest

/-- One single-evidence copy produced by the expander: a generic copy of `s`
(same type, agents and content hash) holding exactly the evidence `ev`. -/
def expandCopy (s : Stmt) (ev : Evidence) : Stmt :=
  { stype := s.stype, agents := s.agents, mk_hash := s.mk_hash,
    evidence := [ev] }

@[simp]
theorem expandCopy_evidence (s : Stmt) (ev : Evidence) :
    (expandCopy s ev).evidence = [ev] := rfl

/-- Unfolding lemma: the copies made by `_expanded` are exactly `expandCopy`
applied to the original evidence records, in order. -/
theorem expanded_cons (s : Stmt) (rest : List Stmt) :
    expanded (s :: rest) =
      (if s.evidence.length > 1 then s.evidence.map (expandCopy s)
       else [s]) ++ expanded rest := rfl

/-- Total number of evidence records across a list of statements. -/
def totalEvidence (stmts : List Stmt) : Nat :=
  (stmts.map (fun s => s.evidence.length)).sum

theorem sum_map_expandCopy (s : Stmt) (l : List Evidence) :
    ((l.map (expandCopy s)).map (fun t => t.evidence.length)).sum
      = l.length := by
  induction l with
  | nil => rfl
  | cons e rest ih =>
      simp [expandCopy] at ih ⊢
      omega

/-- The expander preserves the total evidence count. -/
theorem expanded_totalEvidence (S : List Stmt) :
    totalEvidence (expanded S) = totalEvidence S := by
  induction S with
  | nil => rfl
  | cons s rest ih =>
      rw [expanded_cons]
      by_cases h : s.evidence.length > 1
      · rw [if_pos h]
        simp only [totalEvidence, List.map_append, List.sum_append,
          sum_map_expandCopy] at *
        simp [ih]
      · rw [if_neg h]
        simp only [totalEvidence, List.map_append, List.sum_append] at *
        simp [ih]

/-- Every output of the expander has at most one evidence record. -/
theorem expanded_le_one (S : List Stmt) :
    ∀ t ∈ expanded S, t.evidence.length ≤ 1 := by
  induction S with
  | nil => simp [expanded]
  | cons s rest ih =>
      intro t ht
      rw [expanded_cons] at ht
      by_cases h : s.evidence.length > 1
      · rw [if_pos h] at ht
        rcases List.mem_append.mp ht with hl | hr
        · rcases List.mem_map.mp hl with ⟨ev, _, hev⟩
          rw [← hev]
          simp
        · exact ih t hr
      · rw [if_neg h] at ht
        rcases List.mem_append.mp ht with hl | hr
        · have hts := List.mem_singleton.mp hl
          subst hts
          omega
        · exact ih t hr

/-- When every input statement carries at least one evidence record, every
output of the expander carries exactly one. -/
theorem expanded_eq_one (S : List Stmt) (hS : ∀ s ∈ S, s.evidence ≠ []) :
    ∀ t ∈ expanded S, t.evidence.length = 1 := by
  induction S with
  | nil => simp [expanded]
  | cons s rest ih =>
      intro t ht
      rw [expanded_cons] at ht
      by_cases h : s.evidence.length > 1
      · rw [if_pos h] at ht
        rcases List.mem_append.mp ht with hl | hr
        · rcases List.mem_map.mp hl with ⟨ev, _, hev⟩
          rw [← hev]
          simp
        · exact ih (fun x hx => hS x (List.mem_cons_of_mem s hx)) t hr
      · rw [if_neg h] at ht
        rcases List.mem_append.mp ht with hl | hr
        · have hts := List.mem_singleton.mp hl
          subst hts
          have hne : t.evidence ≠ [] := hS t (List.mem_cons_self t rest)
          have hlen : t.evidence.length ≠ 0 := fun hz =>
            hne (List.length_eq_zero.mp hz)
          omega
        · exact ih (fun x hx => hS x (List.mem_cons_of_mem s hx)) t hr

/-! ## Store model

The store interface (`db` in the manager code) is that of §6 of the spec:
`select_one`/`select_all`, `insert` returning an id, `commit`, and batch
statement insertion keyed by a registration id.  `Db` holds the two tables the
manager touches — the registration table (`DBInfo`) and the raw statement
table (`RawStatements`, of which only the `(db_info_id, mk_hash, source_hash)`
columns matter here) — together with a chronological log of the store
operations performed, so that "no write happened" is a statement about the
log. -/

inductive StoreOp where
  | selectOne (table : String)
  | selectAll (table : String)
  | insertInfo (id : Nat)
  | commitOp
  | insertStmtsOp (dbid : Nat) (n : Nat)
  deriving DecidableEq, Repr

/-- Is this store operation a write (an insert or a commit)? -/
def StoreOp.isWrite : StoreOp → Bool
  | StoreOp.selectOne _ => false
  | StoreOp.selectAll _ => false
  | _ => true

/-- Is this store operation the batch statement insert? -/
def StoreOp.isStmtInsert : StoreOp → Bool
  | StoreOp.insertStmtsOp _ _ => true
  | _ => false

structure DBInfoRow where
  id : Nat
  db_name : String
  source_api : String
  db_full_name : String
  deriving DecidableEq, Repr

structure RawStmtRow where
  db_info_id : Nat
  mk_hash : Int
  source_hash : Int
  deriving DecidableEq, Repr

structure Db where
  dbinfo : List DBInfoRow
  raw_stmts : List RawStmtRow
  next_id : Nat
  log : List StoreOp
  deriving DecidableEq, Repr

/-- The static identity of one knowledgebase manager: its `name`,
`short_name` and `source` class attributes. -/
structure KbInfo where
  name : String
  short_name : String
  source : String
  deriving DecidableEq, Repr

/-- The registration lookup predicate of `_check_reference`:
`db.DBInfo.db_name == self.short_name`. -/
def byShortName (sn : String) : DBInfoRow → Bool := fun r => r.db_name == sn

/-- In-place mutation of the row `select_one` returned: overwrite the
`source_api` of the first registration row carrying this short name. -/
def setSourceApiFirst : List DBInfoRow → String → String → List DBInfoRow
  | [], _, _ => []
  | r :: rest, short_name, source =>
      if r.db_name == short_name then { r with source_api := source } :: rest
      else r :: setSourceApiFirst rest short_name source

/-- `_check_reference` (knowledgebase_manager.py lines 54-69): look up the
registration by short name (`db.select_one`, a logged read); if absent, insert
one when `can_create` is set (a logged insert returning the fresh id) and
return `none` otherwise; if present with a stale `source_api`, overwrite it in
place and commit.  Returns the updated store and the registration id. -/
def check_reference (mgr : KbInfo) (db : Db) (can_create : Bool) :
    Db × Option Nat :=
  let db1 := { db with log := db.log ++ [StoreOp.selectOne "db_info"] }
  match db.dbinfo.find? (byShortName mgr.short_name) with
  | none =>
      if can_create then
        ({ db1 with
            dbinfo := db1.dbinfo ++
              [{ id := db1.next_id, db_name := mgr.short_name,
                 source_api := mgr.source, db_full_name := mgr.name }],
            next_id := db1.next_id + 1,
            log := db1.log ++ [StoreOp.insertInfo db1.next_id] },
         some db1.next_id)
      else (db1, none)
  | some dbinfo =>
      if dbinfo.source_api ≠ mgr.source then
        ({ db1 with
            dbinfo := setSourceApiFirst db1.dbinfo mgr.short_name mgr.source,
            log := db1.log ++ [StoreOp.commitOp] }, some dbinfo.id)
      else (db1, some dbinfo.id)

theorem setSourceApiFirst_find? (l : List DBInfoRow) (sn src : String)
    (r : DBInfoRow) (h : l.find? (byShortName sn) = some r) :
    (setSourceApiFirst l sn src).find? (byShortName sn)
      = some { r with source_api := src } := by
  induction l with
  | nil => simp at h
  | cons a rest ih =>
      rw [setSourceApiFirst]
      by_cases ha : a.db_name == sn
      · have har : a = r := by
          rw [List.find?_cons_of_pos _ (show byShortName sn a from ha)] at h
          injection h
        subst har
        rw [if_pos ha]
        exact List.find?_cons_of_pos _
          (show byShortName sn { a with source_api := src } from ha)
      · rw [List.find?_cons_of_neg _ (show ¬ byShortName sn a from ha)] at h
        rw [if_neg ha]
        rw [List.find?_cons_of_neg _ (show ¬ byShortName sn a from ha)]
        exact ih h

/-- `setSourceApiFirst` never changes the set of `db_name`s. -/
theorem setSourceApiFirst_db_name (l : List DBInfoRow) (sn src : String) :
    (setSourceApiFirst l sn src).map (fun r => r.db_name)
      = l.map (fun r => r.db_name) := by
  induction l with
  | nil => rfl
  | cons a rest ih =>
      rw [setSourceApiFirst]
      by_cases ha : a.db_name == sn
      · rw [if_pos ha]; simp
      · rw [if_neg ha]; simpa using ih

/-- Modelled from the spec: `insert_db_stmts` lives in `indra_db.util`, which
is not among the sources here.  §4.4/§6 describe it as the batch insertion of
statements under the registration id, each persisted row carrying the
statement's `(content_hash, source_hash)` dedup key of §3; by §4.1 statements
reaching the store are single-evidence, the source hash being that of the
statement's evidence record. -/
def insert_db_stmts (db : Db) (stmts : List Stmt) (dbid : Nat) : Db :=
  { db with
      raw_stmts := db.raw_stmts ++ stmts.filterMap (fun s =>
        s.evidence.head?.map (fun ev =>
          { db_info_id := dbid, mk_hash := s.get_hash,
            source_hash := ev.get_source_hash })),
      log := db.log ++ [StoreOp.insertStmtsOp dbid stmts.length] }

/-- The `(mk_hash, source_hash)` pairs persisted under a registration id. -/
def persisted_keys (db : Db) (dbid : Nat) : List (Int × Int) :=
  (db.raw_stmts.filter (fun r => r.db_info_id == dbid)).map
    (fun r => (r.mk_hash, r.source_hash))

/-- `upload` (knowledgebase_manager.py lines 27-36): register the source
(`can_create` defaults to true), fetch the statements, assert validity of
every one of them — raising before anything is inserted — then batch insert.
`valid` stands for the external `assert_valid_statement` of §6 and `fetch` for
the adapter's `_get_statements()`. -/
inductive Err where
  | invalidStatement
  | notRegistered
  | indexError
  deriving DecidableEq, Repr

def upload (mgr : KbInfo) (valid : Stmt → Bool) (fetch : List Stmt)
    (db : Db) : Db × Option Err :=
  match check_reference mgr db true with
  | (db1, none) => (db1, some Err.notRegistered)
  | (db1, some dbid) =>
      if fetch.all valid then (insert_db_stmts db1 fetch dbid, none)
      else (db1, some Err.invalidStatement)

/-- The list comprehension of lines 48-50: keep each fetched statement whose
`(s.get_hash(), s.evidence[0].get_source_hash())` is not among the existing
keys.  On a statement with an empty evidence list, `s.evidence[0]` raises
`IndexError`. -/
def filter_new : List Stmt → List (Int × Int) → Except Err (List Stmt)
  | [], _ => Except.ok []
  | s :: rest, keys =>
      match s.evidence.head? with
      | none => Except.error Err.indexError
      | some ev =>
          match filter_new rest keys with
          | Except.error e => Except.error e
          | Except.ok tail =>
              if (s.get_hash, ev.get_source_hash) ∈ keys then Except.ok tail
              else Except.ok (s :: tail)

/-- `update` (knowledgebase_manager.py lines 38-52): require an existing
registration (`can_create=False`, raising `ValueError` when absent), read the
existing-key index, fetch, filter out statements whose key is already present,
and batch insert the remainder. -/
def update (mgr : KbInfo) (fetch : List Stmt) (db : Db) : Db × Option Err :=
  match check_reference mgr db false with
  | (db1, none) => (db1, some Err.notRegistered)
  | (db1, some dbid) =>
      let db2 := { db1 with
                    log := db1.log ++ [StoreOp.selectAll "raw_statements"] }
      let keys := persisted_keys db1 dbid
      match filter_new fetch keys with
      | Except.error e => (db2, some e)
      | Except.ok filtered => (insert_db_stmts db2 filtered dbid, none)

/-! ## Properties of the registration step -/

theorem check_reference_absent_noCreate (mgr : KbInfo) (db : Db)
    (h : db.dbinfo.find? (byShortName mgr.short_name) = none) :
    check_reference mgr db false
      = ({ db with log := db.log ++ [StoreOp.selectOne "db_info"] }, none) := by
  unfold check_reference
  rw [h]
  rfl

theorem check_reference_absent_create (mgr : KbInfo) (db : Db)
    (h : db.dbinfo.find? (byShortName mgr.short_name) = none) :
    check_reference mgr db true
      = ({ db with
            dbinfo := db.dbinfo ++
              [{ id := db.next_id, db_name := mgr.short_name,
                 source_api := mgr.source, db_full_name := mgr.name }],
            next_id := db.next_id + 1,
            log := db.log ++ [StoreOp.selectOne "db_info",
                              StoreOp.insertInfo db.next_id] },
         some db.next_id) := by
  unfold check_reference
  rw [h]
  simp [List.append_assoc]

theorem check_reference_present_match (mgr : KbInfo) (db : Db) (r : DBInfoRow)
    (h : db.dbinfo.find? (byShortName mgr.short_name) = some r)
    (hs : r.source_api = mgr.source) (c : Bool) :
    check_reference mgr db c
      = ({ db with log := db.log ++ [StoreOp.selectOne "db_info"] },
         some r.id) := by
  unfold check_reference
  rw [h]
  simp [hs]

theorem check_reference_present_stale (mgr : KbInfo) (db : Db) (r : DBInfoRow)
    (h : db.dbinfo.find? (byShortName mgr.short_name) = some r)
    (hs : r.source_api ≠ mgr.source) (c : Bool) :
    check_reference mgr db c
      = ({ db with
            dbinfo := setSourceApiFirst db.dbinfo mgr.short_name mgr.source,
            log := db.log ++ [StoreOp.selectOne "db_info",
                              StoreOp.commitOp] },
         some r.id) := by
  unfold check_reference
  rw [h]
  simp [hs, List.append_assoc]

/-- After a lookup that returned an id, the store holds a registration row
under the manager's short name whose id is that id and whose `source_api`
matches the manager's source. -/
theorem check_reference_found (mgr : KbInfo) (db : Db) (c : Bool) (dbid : Nat)
    (h : (check_reference mgr db c).2 = some dbid) :
    ∃ row, (check_reference mgr db c).1.dbinfo.find?
        (byShortName mgr.short_name) = some row ∧
      row.id = dbid ∧ row.source_api = mgr.source := by
  cases hf : db.dbinfo.find? (byShortName mgr.short_name) with
  | none =>
      cases c with
      | false =>
          rw [check_reference_absent_noCreate mgr db hf] at h
          exact absurd h (by simp)
      | true =>
          rw [check_reference_absent_create mgr db hf] at h ⊢
          simp only [Option.some.injEq] at h
          refine ⟨{ id := db.next_id, db_name := mgr.short_name,
                    source_api := mgr.source, db_full_name := mgr.name },
                  ?_, h, rfl⟩
          show (db.dbinfo ++ _).find? _ = _
          rw [List.find?_append, hf]
          simp [byShortName]
  | some r =>
      by_cases hs : r.source_api = mgr.source
      · rw [check_reference_present_match mgr db r hf hs c] at h ⊢
        simp only [Option.some.injEq] at h
        exact ⟨r, hf, h, hs⟩
      · rw [check_reference_present_stale mgr db r hf hs c] at h ⊢
        simp only [Option.some.injEq] at h
        exact ⟨{ r with source_api := mgr.source },
               setSourceApiFirst_find? db.dbinfo mgr.short_name mgr.source r hf,
               h, rfl⟩

theorem check_reference_raw_stmts (mgr : KbInfo) (db : Db) (c : Bool) :
    (check_reference mgr db c).1.raw_stmts = db.raw_stmts := by
  unfold check_reference
  split <;> split <;> rfl

theorem check_reference_log (mgr : KbInfo) (db : Db) (c : Bool) :
    ∃ ops, (check_reference mgr db c).1.log = db.log ++ ops ∧
      ∀ op ∈ ops, op.isStmtInsert = false := by
  unfold check_reference
  split
  · split
    · exact ⟨[StoreOp.selectOne "db_info", StoreOp.insertInfo db.next_id],
        by simp, by simp [StoreOp.isStmtInsert]⟩
    · exact ⟨[StoreOp.selectOne "db_info"],
        by simp, by simp [StoreOp.isStmtInsert]⟩
  · split
    · exact ⟨[StoreOp.selectOne "db_info", StoreOp.commitOp],
        by simp, by simp [StoreOp.isStmtInsert]⟩
    · exact ⟨[StoreOp.selectOne "db_info"],
        by simp, by simp [StoreOp.isStmtInsert]⟩

theorem check_reference_create_some (mgr : KbInfo) (db : Db) :
    (check_reference mgr db true).2 ≠ none := by
  unfold check_reference
  split
  · simp
  · split <;> simp

/-! ## Properties of the incremental-update filter -/

/-- When every fetched statement carries at least one evidence record, the
filtering comprehension of `update` is well defined (no `IndexError`). -/
theorem filter_new_total (fetch : List Stmt) (keys : List (Int × Int))
    (h : ∀ s ∈ fetch, s.evidence ≠ []) :
    ∃ filtered, filter_new fetch keys = Except.ok filtered := by
  induction fetch with
  | nil => exact ⟨[], rfl⟩
  | cons s rest ih =>
      obtain ⟨tail, htail⟩ := ih (fun x hx => h x (List.mem_cons_of_mem s hx))
      cases hse : s.evidence with
      | nil => exact absurd hse (h s (List.mem_cons_self s rest))
      | cons ev t =>
          by_cases hk : (s.get_hash, ev.get_source_hash) ∈ keys
          · exact ⟨tail, by simp [filter_new, hse, htail, hk]⟩
          · exact ⟨s :: tail, by simp [filter_new, hse, htail, hk]⟩

/-- A second filtering pass against any superset of the original keys that
also covers every statement the first pass kept returns the empty list. -/
theorem filter_new_mono_empty :
    ∀ (fetch : List Stmt) (keys keys2 : List (Int × Int))
      (filtered : List Stmt),
      filter_new fetch keys = Except.ok filtered →
      (∀ k ∈ keys, k ∈ keys2) →
      (∀ s ∈ filtered, ∀ ev, s.evidence.head? = some ev →
        (s.get_hash, ev.get_source_hash) ∈ keys2) →
      filter_new fetch keys2 = Except.ok [] := by
  intro fetch
  induction fetch with
  | nil => intro keys keys2 filtered _ _ _; rfl
  | cons s rest ih =>
      intro keys keys2 filtered h hmono hfil
      cases hse : s.evidence.head? with
      | none =>
          simp only [filter_new, hse] at h
          exact Except.noConfusion h
      | some ev =>
          cases hrec : filter_new rest keys with
          | error e =>
              simp only [filter_new, hse, hrec] at h
              exact Except.noConfusion h
          | ok tail =>
              simp only [filter_new, hse, hrec] at h
              by_cases hk : (s.get_hash, ev.get_source_hash) ∈ keys
              · rw [if_pos hk] at h
                simp only [Except.ok.injEq] at h
                subst h
                have hr := ih keys keys2 tail hrec hmono hfil
                simp only [filter_new, hse, hr]
                rw [if_pos (hmono _ hk)]
              · rw [if_neg hk] at h
                simp only [Except.ok.injEq] at h
                have hkey : (s.get_hash, ev.get_source_hash) ∈ keys2 :=
                  hfil s (h ▸ List.mem_cons_self s tail) ev hse
                have hr := ih keys keys2 tail hrec hmono
                  (fun x hx evx hevx =>
                    hfil x (h ▸ List.mem_cons_of_mem s hx) evx hevx)
                simp only [filter_new, hse, hr]
                rw [if_pos hkey]

/-! ## Snapshot build and cutover (readonly_manager.py)

`World` is the observable state of a snapshot refresh run: the serving
function's environment variables (the redirect toggled by
`ReadonlyTransferEnv`), the schemas present on the principal database, and a
chronological trace of the events of the run.  The external database
operations `generate_readonly`, `dump_readonly` and `load_dump` (repository
code outside these sources, §6 store interface) either complete or raise; a
Boolean per operation selects which, and a raising operation leaves the world
unchanged. -/

inductive PyExn where
  /-- Raised by CPython when a function is called with a number of arguments
  that does not match its `def`. -/
  | typeError
  /-- Raised by CPython when attribute lookup fails — in particular by a
  boto3 client for an operation name it does not expose. -/
  | attributeError
  /-- An exception raised by the named external database operation. -/
  | opError (stage : String)
  deriving DecidableEq, Repr

inductive REvent where
  | dropSchema (name : String)
  | generated
  | dumped
  | envSet (env : List (String × String))
  | loaded
  deriving DecidableEq, Repr

/-- Is this run event a schema drop? -/
def REvent.isDrop : REvent → Bool
  | REvent.dropSchema _ => true
  | _ => false

structure World where
  lambdaEnv : List (String × String)
  schemas : List String
  events : List REvent
  deriving DecidableEq, Repr

/-- `principal_db.drop_schema('readonly')`. -/
def drop_schema (name : String) (w : World) : World :=
  { w with schemas := w.schemas.filter (fun s => s ≠ name),
           events := w.events ++ [REvent.dropSchema name] }

/-- `principal_db.generate_readonly(...)`: on success the `readonly` schema
exists on the principal database afterwards; on failure the call raises. -/
def generate_readonly (ok : Bool) (w : World) : World × Option PyExn :=
  if ok then
    ({ w with
        schemas := if "readonly" ∈ w.schemas then w.schemas
                   else w.schemas ++ ["readonly"],
        events := w.events ++ [REvent.generated] }, none)
  else (w, some (PyExn.opError "generate_readonly"))

/-- `principal_db.dump_readonly()`. -/
def dump_readonly (ok : Bool) (w : World) : World × Option PyExn :=
  if ok then
    ({ w with events := w.events ++ [REvent.dumped] }, none)
  else (w, some (PyExn.opError "dump_readonly"))

/-- `readonly_db.load_dump(dump_file)`. -/
def load_dump (ok : Bool) (w : World) : World × Option PyExn :=
  if ok then
    ({ w with events := w.events ++ [REvent.loaded] }, none)
  else (w, some (PyExn.opError "load_dump"))

/-- The operation methods a boto3 Lambda client exposes: the AWS Lambda API
operation UpdateFunctionConfiguration surfaces as
`update_function_configuration`; looking up any other attribute on the client
raises `AttributeError`. -/
def lambdaClientMethods : List String := ["update_function_configuration"]

/-- The method name `_set_lambda_env` actually invokes on the client at
readonly_manager.py line 47. -/
def setLambdaEnvCalledMethod : String := "update_function_configureation"

/-- `self._set_lambda_env(env_dict)` (readonly_manager.py lines 45-50): build
a Lambda client and call `update_function_configureation` on it with the new
environment variables.  The called name is misspelled — the client exposes no
such operation — so the attribute lookup raises `AttributeError` on every
invocation and the serving environment is never written. -/
def set_lambda_env (env : List (String × String)) (w : World) :
    World × Option PyExn :=
  if lambdaClientMethods.contains setLambdaEnvCalledMethod then
    ({ w with lambdaEnv := env, events := w.events ++ [REvent.envSet env] },
     none)
  else (w, some PyExn.attributeError)

/-- The misspelled operation name makes every `_set_lambda_env` call raise
without touching the world. -/
theorem set_lambda_env_raises (env : List (String × String)) (w : World) :
    set_lambda_env env w = (w, some PyExn.attributeError) := rfl

/-- `ReadonlyTransferEnv` (readonly_manager.py lines 40-56).  The class holds
the principal and readonly handles; only the principal's URL matters here. -/
structure ReadonlyTransferEnv where
  principal_url : String

/-- Number of parameters besides `self` in `def __enter__(self):`. -/
def ReadonlyTransferEnv.enterParams : Nat := 0

/-- Number of parameters besides `self` in `def __exit__(self):`
(line 55 of the source declares no others). -/
def ReadonlyTransferEnv.exitParams : Nat := 0

/-- Body of `__enter__`: redirect the serving layer to the principal store
(via `_set_lambda_env`, which in fact raises on every call). -/
def ReadonlyTransferEnv.enterBody (cm : ReadonlyTransferEnv) (w : World) :
    World × Option PyExn :=
  set_lambda_env [("INDRAROOVERRIDE", cm.principal_url)] w

/-- Body of `__exit__`: clear the redirect (same failing call). -/
def ReadonlyTransferEnv.exitBody (_cm : ReadonlyTransferEnv) (w : World) :
    World × Option PyExn :=
  set_lambda_env [] w

/-- A Python positional call: when the number of supplied arguments differs
from the number of declared parameters, CPython raises `TypeError` and the
function body never runs. -/
def pyCall (declared supplied : Nat) (body : World → World × Option PyExn)
    (w : World) : World × Option PyExn :=
  if supplied = declared then body w else (w, some PyExn.typeError)

/-- The Python `with` statement over a `ReadonlyTransferEnv` (line 82):
call `__enter__()` with no arguments; if it raises, the block and `__exit__`
never run and the exception propagates.  Otherwise run the block, then on
every exit path call `__exit__(exc_type, exc_value, traceback)` with three
arguments.  An exception raised by the `__exit__` call itself propagates;
otherwise the block's exception, if any, propagates (`__exit__` has no return
value, so it never suppresses). -/
def withTransferEnv (cm : ReadonlyTransferEnv)
    (block : World → World × Option PyExn) (w : World) :
    World × Option PyExn :=
  match pyCall ReadonlyTransferEnv.enterParams 0 cm.enterBody w with
  | (w1, some e) => (w1, some e)
  | (w1, none) =>
      match block w1 with
      | (w2, blockExn) =>
          match pyCall ReadonlyTransferEnv.exitParams 3 cm.exitBody w2 with
          | (w3, some e) => (w3, some e)
          | (w3, none) => (w3, blockExn)

/-- The command-line flags of `main` that the cycle's control flow reads. -/
structure RArgs where
  delete_existing : Bool
  allow_continue : Bool
  deriving DecidableEq, Repr

/-- `main` (readonly_manager.py lines 59-90): optionally drop a pre-existing
`readonly` schema, generate the readonly schema, dump it, load the dump into
the readonly store inside the `ReadonlyTransferEnv` cutover, and — only when
everything before completed without raising — drop the now superfluous
`readonly` schema from the principal store.  `genOk`/`dumpOk`/`loadOk` say
whether each external operation completes or raises. -/
def rmain (args : RArgs) (principal_url : String)
    (genOk dumpOk loadOk : Bool) (w : World) : World × Option PyExn :=
  let w0 := if args.delete_existing && w.schemas.contains "readonly" then
              drop_schema "readonly" w
            else w
  match generate_readonly genOk w0 with
  | (w1, some e) => (w1, some e)
  | (w1, none) =>
      match dump_readonly dumpOk w1 with
      | (w2, some e) => (w2, some e)
      | (w2, none) =>
          match withTransferEnv ⟨principal_url⟩ (load_dump loadOk) w2 with
          | (w3, some e) => (w3, some e)
          | (w3, none) => (drop_schema "readonly" w3, none)

/-- Entering the transfer environment raises `AttributeError` from the
misspelled `_set_lambda_env` call before the block can run, leaving the world
untouched. -/
theorem withTransferEnv_raises (cm : ReadonlyTransferEnv)
    (block : World → World × Option PyExn) (w : World) :
    withTransferEnv cm block w = (w, some PyExn.attributeError) := by
  simp [withTransferEnv, pyCall, ReadonlyTransferEnv.enterParams,
    ReadonlyTransferEnv.enterBody, set_lambda_env_raises]

/-- The full event trace of one snapshot refresh run, as a function of which
external operations complete without raising.  No run gets past the cutover
entry — `__enter__` raises — so neither an `envSet` nor a `loaded` event ever
occurs, whatever the load outcome would have been. -/
theorem rmain_trace (args : RArgs) (url : String) (g d l : Bool) (w : World) :
    (rmain args url g d l w).1.events =
      w.events ++
        ((if args.delete_existing && w.schemas.contains "readonly"
          then [REvent.dropSchema "readonly"] else []) ++
         (if g then
            [REvent.generated] ++ (if d then [REvent.dumped] else [])
          else [])) := by
  by_cases hpre : args.delete_existing = true ∧ "readonly" ∈ w.schemas <;>
    cases g <;> cases d <;> cases l <;>
      simp [rmain, generate_readonly, dump_readonly,
        withTransferEnv_raises, drop_schema, hpre, List.append_assoc]

/-- Once generation has completed, the `readonly` schema is present on the
principal store at the end of the run, whatever happens afterwards. -/
theorem rmain_schemas (args : RArgs) (url : String) (d l : Bool) (w : World) :
    "readonly" ∈ (rmain args url true d l w).1.schemas := by
  by_cases hpre : args.delete_existing = true ∧ "readonly" ∈ w.schemas <;>
    cases d <;> cases l <;>
      · simp [rmain, generate_readonly, dump_readonly,
          withTransferEnv_raises, drop_schema, hpre]
        all_goals split <;> simp_all

/-- A `loaded` event appears in a run's trace only when generation, dump and
load all completed (here vacuously: the broken cutover entry means no run
ever records one). -/
theorem rmain_loaded (args : RArgs) (url : String) (g d l : Bool) (w : World)
    (hmem : REvent.loaded
      ∈ ((rmain args url g d l w).1.events.drop w.events.length)) :
    g = true ∧ d = true ∧ l = true := by
  rw [rmain_trace, List.drop_left] at hmem
  exfalso
  rcases List.mem_append.mp hmem with h1 | h2
  · split at h1 <;> simp at h1
  · cases g <;> cases d <;> simp at h2

/-- A statement with no evidence at all, used as a concrete input. -/
def zeroEvStmt : Stmt :=
  { stype := "Complex", agents := ["TP53", "MDM2"], mk_hash := 101,
    evidence := [] }

/-- A statement carrying two evidence records, used as a concrete input. -/
def twoEvStmt : Stmt :=
  { stype := "Phosphorylation", agents := ["MAP2K1", "MAPK1"], mk_hash := 55,
    evidence := [{ source_hash := 7 }, { source_hash := 8 }] }

/-- A single-evidence statement, used as a concrete input. -/
def stmtA : Stmt :=
  { stype := "Activation", agents := ["RAF1", "MAP2K1"], mk_hash := 1,
    evidence := [{ source_hash := 10 }] }

/-- The identity of the TAS manager (`TasManager` class attributes). -/
def tasMgr : KbInfo := { name := "TAS", short_name := "tas", source := "tas" }

/-- A registration row for `tas` whose `source_api` is current. -/
def tasRow : DBInfoRow :=
  { id := 1, db_name := "tas", source_api := "tas", db_full_name := "TAS" }

/-- A registration row for `tas` whose `source_api` has drifted. -/
def staleRow : DBInfoRow :=
  { id := 1, db_name := "tas", source_api := "old_api", db_full_name := "TAS" }

/-- A store in which `tas` is registered and no statements are persisted. -/
def dbReg : Db :=
  { dbinfo := [tasRow], raw_stmts := [], next_id := 2, log := [] }

/-- A store in which `tas` is registered under a stale `source_api`. -/
def dbStale : Db :=
  { dbinfo := [staleRow], raw_stmts := [], next_id := 2, log := [] }

/-- A store in which only some other source is registered. -/
def dbOther : Db :=
  { dbinfo := [{ id := 1, db_name := "signor", source_api := "signor",
                 db_full_name := "Signor" }],
    raw_stmts := [], next_id := 2, log := [] }

/-- A store holding one persisted statement row under registration 1. -/
def dbPre : Db :=
  { dbinfo := [tasRow],
    raw_stmts := [{ db_info_id := 1, mk_hash := 1, source_hash := 10 }],
    next_id := 2, log := [] }

/-- A pristine world: no redirect set, no schemas, empty trace. -/
def initWorld : World := { lambdaEnv := [], schemas := [], events := [] }

/-! ## The claims -/

/-- Claim C4 (counterexample): the claim asserts that every statement in the
expander's output carries exactly one evidence record; a statement with zero
evidence records is passed through unchanged, so the claim fails on the input
`[zeroEvStmt]`. -/
theorem c4_counterexample :
    ¬ (∀ S : List Stmt, totalEvidence (expanded S) = totalEvidence S ∧
        ∀ t ∈ expanded S, t.evidence.length = 1) := by
  intro h
  have h2 := (h [zeroEvStmt]).2 zeroEvStmt (by decide)
  exact absurd h2 (by decide)

/-- Claim C4 (amended): for every input sequence, the Evidence Expander
preserves the total evidence count; and whenever every input statement
carries at least one evidence record, every output statement carries exactly
one evidence record. -/
theorem c4_expander_counts :
    (∀ S : List Stmt, totalEvidence (expanded S) = totalEvidence S) ∧
    (∀ S : List Stmt, (∀ s ∈ S, s.evidence ≠ []) →
      ∀ t ∈ expanded S, t.evidence.length = 1) :=
  ⟨expanded_totalEvidence, expanded_eq_one⟩

theorem c4_witness :
    (∀ s ∈ [twoEvStmt], s.evidence ≠ []) ∧
    totalEvidence (expanded [twoEvStmt]) = totalEvidence [twoEvStmt] ∧
    (∀ t ∈ expanded [twoEvStmt], t.evidence.length = 1) :=
  ⟨by decide, c4_expander_counts.1 [twoEvStmt],
   c4_expander_counts.2 [twoEvStmt] (by decide)⟩

/-- Claim C5: a statement with more than one evidence record is expanded into
one generic copy per evidence record — same type, same agents, evidence list
reduced to exactly that one record — in the original evidence order, while a
statement with one or zero evidence records passes through unchanged. -/
theorem c5_expander_shape (s : Stmt) (rest : List Stmt) :
    (1 < s.evidence.length →
      expanded (s :: rest) = s.evidence.map (expandCopy s) ++ expanded rest ∧
      ∀ ev ∈ s.evidence, (expandCopy s ev).stype = s.stype ∧
        (expandCopy s ev).agents = s.agents ∧
        (expandCopy s ev).evidence = [ev]) ∧
    (s.evidence.length ≤ 1 → expanded (s :: rest) = s :: expanded rest) := by
  constructor
  · intro h
    rw [expanded_cons, if_pos h]
    exact ⟨rfl, fun ev _ => ⟨rfl, rfl, rfl⟩⟩
  · intro h
    rw [expanded_cons, if_neg (by omega)]
    rfl

theorem c5_witness :
    (1 < twoEvStmt.evidence.length) ∧
    (expanded (twoEvStmt :: [zeroEvStmt])
        = twoEvStmt.evidence.map (expandCopy twoEvStmt)
          ++ expanded [zeroEvStmt] ∧
     ∀ ev ∈ twoEvStmt.evidence,
       (expandCopy twoEvStmt ev).stype = twoEvStmt.stype ∧
       (expandCopy twoEvStmt ev).agents = twoEvStmt.agents ∧
       (expandCopy twoEvStmt ev).evidence = [ev]) :=
  ⟨by decide, (c5_expander_shape twoEvStmt [zeroEvStmt]).1 (by decide)⟩

/-- Claim C10: the filtering step of `update` evaluates `s.evidence[0]`
without a guard; it is total when every fetched statement carries at least
one evidence record, and a zero-evidence statement — which the expander
passes through unchanged — drives `update` into the `IndexError` branch even
on a registered store. -/
theorem c10_filter_requires_evidence :
    (∀ (fetch : List Stmt) (keys : List (Int × Int)),
      (∀ s ∈ fetch, s.evidence ≠ []) →
      ∃ filtered, filter_new fetch keys = Except.ok filtered) ∧
    (expanded [zeroEvStmt] = [zeroEvStmt] ∧
     (update tasMgr [zeroEvStmt] dbReg).2 = some Err.indexError) :=
  ⟨filter_new_total, rfl, rfl⟩

/-- Claim C7: on a store with no registration under the manager's short name,
`update` raises the "not registered" error and performs no side effect: the
only store operation of the call is the registration lookup — no registration
row is inserted, the key index is never read, and no statement is
persisted. -/
theorem c7_update_unregistered_no_side_effect (mgr : KbInfo)
    (fetch : List Stmt) (db : Db)
    (h : ∀ r ∈ db.dbinfo, r.db_name ≠ mgr.short_name) :
    update mgr fetch db
      = ({ db with log := db.log ++ [StoreOp.selectOne "db_info"] },
         some Err.notRegistered) := by
  have hf : db.dbinfo.find? (byShortName mgr.short_name) = none :=
    List.find?_eq_none.mpr (fun x hx => by simp [byShortName, h x hx])
  have hcr := check_reference_absent_noCreate mgr db hf
  simp [update, hcr]

theorem c7_witness :
    (∀ r ∈ dbOther.dbinfo, r.db_name ≠ tasMgr.short_name) ∧
    update tasMgr [stmtA] dbOther
      = ({ dbOther with log := dbOther.log ++ [StoreOp.selectOne "db_info"] },
         some Err.notRegistered) :=
  ⟨by decide, c7_update_unregistered_no_side_effect tasMgr [stmtA] dbOther
    (by decide)⟩

/-- Claim C8: `update` only ever appends raw statement rows — the rows
afterwards are the rows before plus a suffix of new ones — so for every
registration id the set of persisted `(content_hash, source_hash)` keys after
any call is a superset of the set before. -/
theorem c8_update_superset (mgr : KbInfo) (fetch : List Stmt) (db : Db) :
    (∃ new, (update mgr fetch db).1.raw_stmts = db.raw_stmts ++ new) ∧
    ∀ dbid k, k ∈ persisted_keys db dbid →
      k ∈ persisted_keys (update mgr fetch db).1 dbid := by
  have hmain : ∃ new,
      (update mgr fetch db).1.raw_stmts = db.raw_stmts ++ new := by
    rcases hcr : check_reference mgr db false with ⟨db1, r⟩
    have hraw : db1.raw_stmts = db.raw_stmts := by
      have hh := check_reference_raw_stmts mgr db false
      rw [hcr] at hh
      exact hh
    cases r with
    | none => exact ⟨[], by simp [update, hcr, hraw]⟩
    | some dbid =>
        cases hfn : filter_new fetch (persisted_keys db1 dbid) with
        | error e => exact ⟨[], by simp [update, hcr, hfn, hraw]⟩
        | ok filtered =>
            refine ⟨filtered.filterMap (fun s =>
              s.evidence.head?.map (fun ev =>
                { db_info_id := dbid, mk_hash := s.get_hash,
                  source_hash := ev.get_source_hash })), ?_⟩
            simp [update, hcr, hfn, insert_db_stmts, hraw]
  refine ⟨hmain, ?_⟩
  obtain ⟨new, hnew⟩ := hmain
  intro dbid k hk
  unfold persisted_keys at hk ⊢
  rw [hnew, List.filter_append, List.map_append]
  exact List.mem_append_left _ hk

theorem c8_witness :
    ((1 : Int), (10 : Int)) ∈ persisted_keys dbPre 1 ∧
    ((1 : Int), (10 : Int)) ∈ persisted_keys (update tasMgr [] dbPre).1 1 :=
  ⟨by decide, (c8_update_superset tasMgr [] dbPre).2 1 (1, 10) (by decide)⟩

/-- Claim C6: calling `_check_reference` twice with the same short name and
the same source returns the same registration id both times and the second
call performs no metadata write — its only store operation is the lookup;
and whenever the stored `source_api` differs from the manager's source, the
call overwrites it in place and commits the change. -/
theorem c6_registration (mgr : KbInfo) (db : Db) (c : Bool) :
    ((check_reference mgr (check_reference mgr db c).1 c).2
        = (check_reference mgr db c).2 ∧
     (check_reference mgr (check_reference mgr db c).1 c).1.dbinfo
        = (check_reference mgr db c).1.dbinfo ∧
     (check_reference mgr (check_reference mgr db c).1 c).1.raw_stmts
        = (check_reference mgr db c).1.raw_stmts ∧
     (check_reference mgr (check_reference mgr db c).1 c).1.log
        = (check_reference mgr db c).1.log
          ++ [StoreOp.selectOne "db_info"]) ∧
    (∀ r, db.dbinfo.find? (byShortName mgr.short_name) = some r →
      r.source_api ≠ mgr.source →
      (check_reference mgr db c).2 = some r.id ∧
      (check_reference mgr db c).1.dbinfo.find? (byShortName mgr.short_name)
        = some { r with source_api := mgr.source } ∧
      (check_reference mgr db c).1.log
        = db.log ++ [StoreOp.selectOne "db_info", StoreOp.commitOp]) := by
  constructor
  · cases hf : db.dbinfo.find? (byShortName mgr.short_name) with
    | none =>
        cases c with
        | false =>
            rw [check_reference_absent_noCreate mgr db hf]
            dsimp only
            rw [check_reference_absent_noCreate mgr
              { db with log := db.log ++ [StoreOp.selectOne "db_info"] } hf]
            exact ⟨rfl, rfl, rfl, rfl⟩
        | true =>
            rw [check_reference_absent_create mgr db hf]
            dsimp only
            have hf2 : (({ db with
                dbinfo := db.dbinfo ++
                  [{ id := db.next_id, db_name := mgr.short_name,
                     source_api := mgr.source, db_full_name := mgr.name }],
                next_id := db.next_id + 1,
                log := db.log ++ [StoreOp.selectOne "db_info",
                                  StoreOp.insertInfo db.next_id] } : Db)).dbinfo.find?
                  (byShortName mgr.short_name)
                = some { id := db.next_id, db_name := mgr.short_name,
                         source_api := mgr.source,
                         db_full_name := mgr.name } := by
              show (db.dbinfo ++ _).find? _ = _
              rw [List.find?_append, hf]
              simp [byShortName]
            rw [check_reference_present_match mgr _ _ hf2 rfl true]
            exact ⟨rfl, rfl, rfl, rfl⟩
    | some r =>
        by_cases hs : r.source_api = mgr.source
        · rw [check_reference_present_match mgr db r hf hs c]
          dsimp only
          rw [check_reference_present_match mgr
            { db with log := db.log ++ [StoreOp.selectOne "db_info"] } r
            hf hs c]
          exact ⟨rfl, rfl, rfl, rfl⟩
        · rw [check_reference_present_stale mgr db r hf hs c]
          dsimp only
          rw [check_reference_present_match mgr
            { db with
                dbinfo := setSourceApiFirst db.dbinfo mgr.short_name
                  mgr.source,
                log := db.log ++ [StoreOp.selectOne "db_info",
                                  StoreOp.commitOp] }
            { r with source_api := mgr.source }
            (setSourceApiFirst_find? db.dbinfo mgr.short_name mgr.source r hf)
            rfl c]
          exact ⟨rfl, rfl, rfl, rfl⟩
  · intro r hf hs
    rw [check_reference_present_stale mgr db r hf hs c]
    exact ⟨rfl,
      setSourceApiFirst_find? db.dbinfo mgr.short_name mgr.source r hf, rfl⟩

theorem c6_witness :
    (dbStale.dbinfo.find? (byShortName tasMgr.short_name) = some staleRow) ∧
    (staleRow.source_api ≠ tasMgr.source) ∧
    ((check_reference tasMgr dbStale true).2 = some staleRow.id ∧
     (check_reference tasMgr dbStale true).1.dbinfo.find?
         (byShortName tasMgr.short_name)
       = some { staleRow with source_api := tasMgr.source } ∧
     (check_reference tasMgr dbStale true).1.log
       = dbStale.log ++ [StoreOp.selectOne "db_info", StoreOp.commitOp]) :=
  ⟨by decide, by decide,
   (c6_registration tasMgr dbStale true).2 staleRow (by decide) (by decide)⟩

/-- An `update` whose registration lookup succeeds in place and whose filter
returns the empty list persists nothing. -/
theorem update_noop_of_filter_empty (mgr : KbInfo) (fetch : List Stmt)
    (dbA : Db) (row : DBInfoRow)
    (hfind : dbA.dbinfo.find? (byShortName mgr.short_name) = some row)
    (hsrc : row.source_api = mgr.source)
    (hfn2 : filter_new fetch (persisted_keys dbA row.id) = Except.ok []) :
    (update mgr fetch dbA).2 = none ∧
    (update mgr fetch dbA).1.raw_stmts = dbA.raw_stmts := by
  have hcr2 := check_reference_present_match mgr dbA row hfind hsrc false
  simp only [persisted_keys] at hfn2
  refine ⟨?_, ?_⟩ <;>
    simp [update, hcr2, persisted_keys, hfn2, insert_db_stmts]

/-- Claim C3: when an `update` call succeeds, running `update` again
immediately with the same fetched statements persists zero new rows — every
key of the second fetch is in the existing-key index built from what the
first call left behind, so the filtered list is empty and the raw statement
table is unchanged. -/
theorem c3_update_idempotent (mgr : KbInfo) (fetch : List Stmt) (db : Db)
    (h : (update mgr fetch db).2 = none) :
    (update mgr fetch (update mgr fetch db).1).2 = none ∧
    (update mgr fetch (update mgr fetch db).1).1.raw_stmts
      = (update mgr fetch db).1.raw_stmts := by
  rcases hcr : check_reference mgr db false with ⟨db1, r⟩
  cases r with
  | none =>
      simp only [update, hcr] at h
      exact Option.noConfusion h
  | some dbid =>
      cases hfn : filter_new fetch (persisted_keys db1 dbid) with
      | error e =>
          simp only [update, hcr, hfn] at h
          exact Option.noConfusion h
      | ok filtered =>
          obtain ⟨row, hfind, hrowid, hrowsrc⟩ :=
            check_reference_found mgr db false dbid (by rw [hcr])
          rw [hcr] at hfind
          subst hrowid
          have hupd : update mgr fetch db
              = (insert_db_stmts
                  { db1 with
                      log := db1.log ++ [StoreOp.selectAll "raw_statements"] }
                  filtered row.id, none) := by
            simp only [update, hcr, hfn]
          have hfnA : filter_new fetch (persisted_keys
              (insert_db_stmts
                { db1 with
                    log := db1.log ++ [StoreOp.selectAll "raw_statements"] }
                filtered row.id) row.id) = Except.ok [] := by
            apply filter_new_mono_empty fetch (persisted_keys db1 row.id) _
              filtered hfn
            · intro k hk
              simp only [persisted_keys, insert_db_stmts] at hk ⊢
              rw [List.filter_append, List.map_append]
              exact List.mem_append_left _ hk
            · intro s hs ev hev
              simp only [persisted_keys, insert_db_stmts]
              rw [List.filter_append, List.map_append]
              refine List.mem_append_right _ ?_
              refine List.mem_map.mpr
                ⟨{ db_info_id := row.id, mk_hash := s.get_hash,
                   source_hash := ev.get_source_hash }, ?_, rfl⟩
              refine List.mem_filter.mpr ⟨?_, by simp⟩
              refine List.mem_filterMap.mpr ⟨s, hs, ?_⟩
              rw [hev]
              rfl
          rw [hupd]
          dsimp only
          exact update_noop_of_filter_empty mgr fetch _ row hfind hrowsrc hfnA

theorem c3_witness :
    ((update tasMgr [stmtA] dbReg).2 = none) ∧
    ((update tasMgr [stmtA] (update tasMgr [stmtA] dbReg).1).2 = none ∧
     (update tasMgr [stmtA] (update tasMgr [stmtA] dbReg).1).1.raw_stmts
       = (update tasMgr [stmtA] dbReg).1.raw_stmts) :=
  ⟨rfl, c3_update_idempotent tasMgr [stmtA] dbReg rfl⟩

/-- Claim C2: if any statement of the fetched batch fails the validity
assertion, `upload` raises the validation error before the batch insert is
invoked: no raw statement row is persisted by the call, and no batch-insert
operation appears among the store operations it performed. -/
theorem c2_upload_invalid_aborts (mgr : KbInfo) (valid : Stmt → Bool)
    (fetch : List Stmt) (db : Db) (h : ∃ s ∈ fetch, valid s = false) :
    (upload mgr valid fetch db).2 = some Err.invalidStatement ∧
    (upload mgr valid fetch db).1.raw_stmts = db.raw_stmts ∧
    ∀ op ∈ (upload mgr valid fetch db).1.log.drop db.log.length,
      op.isStmtInsert = false := by
  have hall : fetch.all valid = false := by
    rcases h with ⟨s, hs, hv⟩
    exact List.all_eq_false.mpr ⟨s, hs, by simp [hv]⟩
  rcases hcr : check_reference mgr db true with ⟨db1, r⟩
  cases r with
  | none =>
      exact absurd (by rw [hcr] : (check_reference mgr db true).2 = none)
        (check_reference_create_some mgr db)
  | some dbid =>
      have hup : upload mgr valid fetch db = (db1, some Err.invalidStatement)
          := by simp [upload, hcr, hall]
      rw [hup]
      refine ⟨rfl, ?_, ?_⟩
      · have hh := check_reference_raw_stmts mgr db true
        rw [hcr] at hh
        exact hh
      · obtain ⟨ops, hlog, hops⟩ := check_reference_log mgr db true
        rw [hcr] at hlog
        intro op hop
        rw [show db1.log = db.log ++ ops from hlog, List.drop_left] at hop
        exact hops op hop

theorem c2_witness :
    (∃ s ∈ [stmtA], (fun _ => false) s = false) ∧
    ((upload tasMgr (fun _ => false) [stmtA] dbReg).2
        = some Err.invalidStatement ∧
     (upload tasMgr (fun _ => false) [stmtA] dbReg).1.raw_stmts
        = dbReg.raw_stmts ∧
     ∀ op ∈ (upload tasMgr (fun _ => false) [stmtA] dbReg).1.log.drop
         dbReg.log.length,
       op.isStmtInsert = false) :=
  ⟨⟨stmtA, by decide, rfl⟩,
   c2_upload_invalid_aborts tasMgr (fun _ => false) [stmtA] dbReg
     ⟨stmtA, by decide, rfl⟩⟩

/-- Claim C1 (code evaluated at the failing input): the claim describes a
cutover in which a redirect is set at entry, the load runs, and the redirect
is reverted on every exit path.  In the code that protocol never executes:
on any run that reaches the cutover (generation and dump complete, whatever
the load would do), `__enter__` raises `AttributeError` from the misspelled
`update_function_configureation` call, so no redirect is ever set, the load
step is never reached, and the serving environment never leaves its
pre-cutover value.  Independently, the declared `def __exit__(self):` can
never accept the interpreter's three-argument exit call, so the revert body
could not run even if entry succeeded. -/
theorem c1_cutover_never_executes :
    (rmain ⟨false, false⟩ "postgres://primary" true true true initWorld).2
        = some PyExn.attributeError ∧
    (rmain ⟨false, false⟩ "postgres://primary" true true true
        initWorld).1.lambdaEnv = initWorld.lambdaEnv ∧
    REvent.loaded ∉
      (rmain ⟨false, false⟩ "postgres://primary" true true true
        initWorld).1.events ∧
    (∀ env, REvent.envSet env ∉
      (rmain ⟨false, false⟩ "postgres://primary" true true true
        initWorld).1.events) ∧
    (∀ w' : World,
      pyCall ReadonlyTransferEnv.exitParams 3
        (ReadonlyTransferEnv.exitBody ⟨"postgres://primary"⟩) w'
        = (w', some PyExn.typeError)) := by
  refine ⟨rfl, rfl, by decide, ?_, fun w' => rfl⟩
  intro env hmem
  have hev : (rmain ⟨false, false⟩ "postgres://primary" true true true
      initWorld).1.events = [REvent.generated, REvent.dumped] := rfl
  rw [hev] at hmem
  simp at hmem

/-- Claim C9: in the snapshot refresh cycle, the post-load cleanup drop of
the temporary `readonly` schema happens only after the load completed; in any
run where generation, dump or load raises, the only drop ever performed is
the optional pre-build `delete_existing` one, and the schema (once generated)
is retained on the principal store. -/
theorem c9_cleanup_drop_only_after_successful_load (args : RArgs)
    (url : String) (genOk dumpOk loadOk : Bool) (w : World) :
    (¬(genOk = true ∧ dumpOk = true ∧ loadOk = true) →
      ((rmain args url genOk dumpOk loadOk w).1.events.drop
          w.events.length).filter REvent.isDrop
        = (if args.delete_existing && w.schemas.contains "readonly"
           then [REvent.dropSchema "readonly"] else []) ∧
      (genOk = true →
        "readonly" ∈ (rmain args url genOk dumpOk loadOk w).1.schemas)) ∧
    (∀ pre post,
      (rmain args url genOk dumpOk loadOk w).1.events.drop w.events.length
        = pre ++ REvent.loaded :: post →
      REvent.dropSchema "readonly" ∈ post →
      genOk = true ∧ dumpOk = true ∧ loadOk = true) := by
  constructor
  · intro hfail
    constructor
    · rw [rmain_trace, List.drop_left, List.filter_append]
      cases genOk <;> cases dumpOk <;> cases loadOk
      case true.true.true => exact absurd ⟨rfl, rfl, rfl⟩ hfail
      all_goals split <;> simp [REvent.isDrop]
    · intro hg
      cases genOk with
      | false => exact absurd hg (by simp)
      | true => exact rmain_schemas args url dumpOk loadOk w
  · intro pre post heq hdrop
    apply rmain_loaded args url genOk dumpOk loadOk w
    rw [heq]
    exact List.mem_append_right _ (List.mem_cons_self _ _)

theorem c9_witness :
    (¬(true = true ∧ true = true ∧ false = true)) ∧
    (((rmain ⟨false, false⟩ "postgres://primary" true true false
          initWorld).1.events.drop initWorld.events.length).filter
        REvent.isDrop
      = (if RArgs.delete_existing ⟨false, false⟩
            && initWorld.schemas.contains "readonly"
         then [REvent.dropSchema "readonly"] else []) ∧
     (true = true →
       "readonly" ∈ (rmain ⟨false, false⟩ "postgres://primary" true true
           false initWorld).1.schemas)) :=
  ⟨by simp,
   (c9_cleanup_drop_only_after_successful_load ⟨false, false⟩
     "postgres://primary" true true false initWorld).1 (by simp)⟩

theorem c10_witness :
    (∀ s ∈ [stmtA], s.evidence ≠ []) ∧
    ∃ filtered, filter_new [stmtA] [] = Except.ok filtered :=
  ⟨by decide, c10_filter_requires_evidence.1 [stmtA] [] (by decide)⟩

end IndraDb
